import Mathlib

/-!
Verification development for the pirates RPC library.

The Rust sources are shallowly embedded: byte vectors (`Vec<u8>` /
`OwnedBytes`) become `List Nat`, fallible Rust functions return `Except`,
mutation of `&mut State` is modelled by explicit state passing, and the
`.unwrap()` calls of the source are modelled by an explicit `PanicOr`
outcome type so that a panic is distinguishable from a returned error.
-/

namespace Pirates

/-- Model of `OwnedBytes = Vec<u8>` (lib.rs): a byte sequence, bytes as `Nat`. -/
abbrev OwnedBytes := List Nat

/-- Modelled from the spec: the self-describing codec value universe.
The concrete codec of the crate is the external `serde_pickle` crate
(not part of this repository), configured by `TransportConfig::Pickle`.
Spec section 4.1 requires a self-describing codec able to carry
records, sequences, enumerations, primitives and unit; `PValue` is that
universe of serialisable values (records and enumerations are carried
as tagged lists). -/
inductive PValue where
  | unit : PValue
  | boolean (b : Bool) : PValue
  | int (i : Int) : PValue
  | str (s : String) : PValue
  | raw (bs : List Nat) : PValue
  | list (vs : List PValue) : PValue

mutual

/-- Modelled from the spec: the encode half of the self-describing codec
(spec section 4.1, `encode(value) -> bytes`); stands in for
`serde_pickle::ser::to_vec`, which is external to this repository.
Every value is emitted as a tag byte followed by its contents, with
explicit lengths for strings, raw bytes and lists. -/
def pickleEnc : PValue → List Nat
  | .unit => [0]
  | .boolean b => [1, if b then 1 else 0]
  | .int i => [2, if i < 0 then 1 else 0, i.natAbs]
  | .str s => 3 :: (s.data.map Char.toNat).length :: s.data.map Char.toNat
  | .raw bs => 4 :: bs.length :: bs
  | .list vs => 5 :: vs.length :: pickleEncList vs

/-- Encoding of a sequence of values, concatenated. -/
def pickleEncList : List PValue → List Nat
  | [] => []
  | v :: vs => pickleEnc v ++ pickleEncList vs

end

/-- Run a single-value parser a fixed number of times, threading the
remaining input; used for the contents of an encoded list. -/
def parseListWith (p : List Nat → Except String (PValue × List Nat)) :
    Nat → List Nat → Except String (List PValue × List Nat)
  | 0, r => .ok ([], r)
  | n + 1, r =>
    match p r with
    | .error e => .error e
    | .ok (v, r1) =>
      match parseListWith p n r1 with
      | .error e => .error e
      | .ok (vs, r2) => .ok (v :: vs, r2)

/-- Modelled from the spec: the decode half of the self-describing codec
(spec section 4.1, `decode(bytes) -> value | DecodeFailure`); stands in
for `serde_pickle::de::from_slice`, which is external to this
repository. Fuel-indexed recursive-descent parser; truncated, malformed
or type-mismatched bytes yield an `Except.error` with a detail string. -/
def pickleParse : Nat → List Nat → Except String (PValue × List Nat)
  | 0, _ => .error "recursion limit exceeded"
  | f + 1, input =>
    match input with
    | [] => .error "unexpected end of input"
    | tag :: rest =>
      if tag = 0 then .ok (.unit, rest)
      else if tag = 1 then
        match rest with
        | [] => .error "truncated bool"
        | b :: r => .ok (.boolean (b == 1), r)
      else if tag = 2 then
        match rest with
        | sign :: m :: r => .ok (.int (if sign = 0 then (m : Int) else -(m : Int)), r)
        | _ => .error "truncated int"
      else if tag = 3 then
        match rest with
        | [] => .error "truncated string"
        | len :: r =>
          if len ≤ r.length then
            .ok (.str (String.mk ((r.take len).map Char.ofNat)), r.drop len)
          else .error "truncated string"
      else if tag = 4 then
        match rest with
        | [] => .error "truncated bytes"
        | len :: r =>
          if len ≤ r.length then .ok (.raw (r.take len), r.drop len)
          else .error "truncated bytes"
      else if tag = 5 then
        match rest with
        | [] => .error "truncated list"
        | n :: r =>
          match parseListWith (fun b => pickleParse f b) n r with
          | .error e => .error e
          | .ok (vs, r2) => .ok (.list vs, r2)
      else .error "unknown tag"

/-- Modelled from the spec: decoding one complete encoded value, requiring
the whole byte sequence to be consumed. -/
def pickleDe (b : List Nat) : Except String PValue :=
  match pickleParse (b.length + 1) b with
  | .ok (v, []) => .ok v
  | .ok (_, _ :: _) => .error "trailing bytes"
  | .error e => .error e

/-- A typed (de)serialisation configuration: the model of using the
active codec at a concrete Rust type (`serialize::<T>` /
`deserialize::<T>` of `transport.rs`). -/
structure TypeCodec (α : Type) where
  ser : α → OwnedBytes
  deser : OwnedBytes → Except String α

/-- The codec at the universal value type itself. -/
def pvCodec : TypeCodec PValue := ⟨pickleEnc, pickleDe⟩

/-- Every encoded value occupies at least one byte (its tag). -/
theorem pickleEnc_length_pos (v : PValue) : 1 ≤ (pickleEnc v).length := by
  cases v <;> simp [pickleEnc]

/-- Parsing an encoded value from the front of a byte stream succeeds and
consumes exactly the encoding, for any fuel exceeding the encoding length. -/
theorem pickleParse_enc :
    ∀ (f : Nat) (v : PValue) (rest : List Nat), (pickleEnc v).length < f →
      pickleParse f (pickleEnc v ++ rest) = .ok (v, rest) := by
  intro f
  induction f with
  | zero => intro v rest h; omega
  | succ f ih =>
    intro v rest h
    cases v with
    | unit => simp [pickleEnc, pickleParse]
    | boolean b => cases b <;> simp [pickleEnc, pickleParse]
    | int i =>
      rcases lt_or_le i 0 with hi | hi
      · have he : pickleEnc (.int i) = [2, 1, i.natAbs] := by simp [pickleEnc, hi]
        have hv : -((i.natAbs : Nat) : Int) = i := by omega
        rw [he]
        simp [pickleParse, hv]
        try simp [abs_of_neg hi]
      · have he : pickleEnc (.int i) = [2, 0, i.natAbs] := by
          simp [pickleEnc, if_neg (not_lt.mpr hi)]
        have hv : ((i.natAbs : Nat) : Int) = i := by omega
        rw [he]
        simp [pickleParse, hv]
    | str s =>
      obtain ⟨cs⟩ := s
      simp only [pickleEnc, List.cons_append, pickleParse]
      norm_num
      have hcomp : Char.ofNat ∘ Char.toNat = id := funext Char.ofNat_toNat
      rw [hcomp, List.map_id]
    | raw bs =>
      simp only [pickleEnc, List.cons_append, pickleParse]
      norm_num
    | list vs =>
      have hlen : (pickleEncList vs).length < f := by
        simp [pickleEnc] at h; omega
      have key : ∀ (l : List PValue) (r2 : List Nat),
          (pickleEncList l).length < f →
          parseListWith (fun b => pickleParse f b) l.length (pickleEncList l ++ r2) =
            .ok (l, r2) := by
        intro l
        induction l with
        | nil => intro r2 _; simp [pickleEncList, parseListWith]
        | cons x xs ihl =>
          intro r2 hl
          have hx : (pickleEnc x).length < f := by
            simp [pickleEncList] at hl; omega
          have hxs : (pickleEncList xs).length < f := by
            simp [pickleEncList] at hl; omega
          simp only [pickleEncList, List.append_assoc, List.length_cons, parseListWith]
          rw [ih x (pickleEncList xs ++ r2) hx]
          simp [ihl r2 hxs]
      simp only [pickleEnc, List.cons_append, pickleParse]
      norm_num
      rw [key vs rest (by omega)]

/-- Codec round trip: decoding the encoding of any value of the codec
universe yields that value back. -/
theorem pickleDe_enc (v : PValue) : pickleDe (pickleEnc v) = .ok v := by
  have h := pickleParse_enc ((pickleEnc v).length + 1) v [] (by omega)
  rw [List.append_nil] at h
  unfold pickleDe
  rw [h]

/-- The codec round trip stated through the typed codec record; helper
shared by several results below. -/
theorem pvCodec_round_trip (v : PValue) : pvCodec.deser (pvCodec.ser v) = .ok v :=
  show pickleDe (pickleEnc v) = .ok v from pickleDe_enc v

/-- Errors specific to transport (`TransportError`, transport.rs lines
12 to 20): send, receive and connect failures, each carrying a detail
string. -/
inductive TransportError where
  | sendError (s : String) : TransportError
  | receiveError (s : String) : TransportError
  | connectError (s : String) : TransportError

/-- The `Display` rendering of `TransportError` (transport.rs lines 21
to 29). -/
def TransportError.display : TransportError → String
  | .sendError s => "SendError(" ++ s ++ ")"
  | .receiveError s => "ReceiveError(" ++ s ++ ")"
  | .connectError s => "ConnectError(" ++ s ++ ")"

/-- The error taxonomy of the crate (`RpcError`, error.rs lines 5 to 10):
a decode failure (`ParseError`, wrapping the pickle error detail), a
transport failure, or a custom message. -/
inductive RpcError where
  | parseError (detail : String) : RpcError
  | transportError (e : TransportError) : RpcError
  | custom (s : String) : RpcError

/-- The `Display` rendering of `RpcError` (error.rs lines 12 to 20). -/
def RpcError.display : RpcError → String
  | .parseError s => s
  | .transportError e => e.display
  | .custom s => s

/-- Model of `RpcResult<A>` (error.rs line 36). -/
abbrev RpcResult (α : Type) := Except RpcError α

/-- Outcome of running code that may panic: either a value or an aborted
process. Models the `.unwrap()` calls that remain in the source. -/
inductive PanicOr (α : Type) where
  | ok (a : α) : PanicOr α
  | panicked (msg : String) : PanicOr α

namespace TransportConfig

/-- Model of `TransportConfig::serialize` (transport.rs lines 138 to 146) for the
default `Pickle` configuration: delegates to the pickle encoder and
unwraps; encoding of a codec-universe value never fails, so no panic
arises on this path. -/
def serialize (v : PValue) : OwnedBytes := pickleEnc v

/-- Model of `TransportConfig::deserialize` (transport.rs lines 147 to 155) for
the default `Pickle` configuration: delegates to the pickle decoder and
calls `.unwrap()` on the result, so a decode failure panics instead of
being returned as an error. -/
def deserialize (b : OwnedBytes) : PanicOr PValue :=
  match pickleDe b with
  | .ok v => .ok v
  | .error e => .panicked e

end TransportConfig

/-- Modelled from the spec: `TransportWireConfig` is exported by lib.rs
and used by core.rs, but its definition is not under src/. Per spec
section 4.1 its decode half returns the value or a `DecodeFailure`
(realised as `RpcError::ParseError`), and its encode half produces
bytes. Modelled here at a typed position via a `TypeCodec`. -/
def TransportWireConfig.deserialize (c : TypeCodec α) (b : OwnedBytes) : RpcResult α :=
  match c.deser b with
  | .ok v => .ok v
  | .error e => .error (.parseError e)

/-- Modelled from the spec: the encode half of `TransportWireConfig`;
encoding a value of a supported type always succeeds. -/
def TransportWireConfig.serialize (c : TypeCodec α) (v : α) : RpcResult OwnedBytes :=
  .ok (c.ser v)

namespace Transport

/-- The byte-level packaging steps of `Transport::send_query`
(transport.rs lines 175 to 195): serialize the name, wrap name bytes and
query bytes as a `TransportPackage` record (transport.rs lines 59 to
65), serialize the record to the final frame. -/
def packageBytes (nc : TypeCodec Name) (queryBytes : OwnedBytes) (rpcName : Name) :
    OwnedBytes :=
  pickleEnc (.list [.raw (nc.ser rpcName), .raw queryBytes])

/-- Typed deserialization of a `TransportPackageOwned` record
(transport.rs lines 66 to 70): the decoded value must be the record of
the two byte-sequence fields. -/
def packageOfValue : PValue → Except String (OwnedBytes × OwnedBytes)
  | .list [.raw nameBytes, .raw queryBytes] => .ok (nameBytes, queryBytes)
  | _ => .error "expected a TransportPackage record"

/-- The decode steps of `Transport::receive_query` (transport.rs lines
197 to 210) applied to received frame bytes: deserialize the frame as a
`TransportPackageOwned`, deserialize the name bytes as the Name type,
and return the still-encoded query bytes. Both deserialize calls unwrap,
so a failure panics. -/
def receiveQueryBytes (nc : TypeCodec Name) (bytes : OwnedBytes) :
    PanicOr (Name × OwnedBytes) :=
  match pickleDe bytes with
  | .error e => .panicked e
  | .ok pv =>
    match packageOfValue pv with
    | .error e => .panicked e
    | .ok (nameBytes, queryBytes) =>
      match nc.deser nameBytes with
      | .error e => .panicked e
      | .ok name => .ok (name, queryBytes)

end Transport

/-- Model of `RpcImpl` (core.rs lines 42 to 45): an operation bound to its name
and its handler. The Rust handler `Fn(&mut State, Q) -> RpcResult<R>`
is modelled with explicit state passing: it returns the result together
with the possibly mutated state. -/
structure RpcImpl (Name State Q R : Type) where
  name : Name
  call : State → Q → RpcResult R × State

/-- Model of `StoredRpc::call_of_bytes` for `RpcImpl` (core.rs lines 83 to 93):
deserialize the payload bytes as the Query type, invoke the bound
handler with (state, query), serialize the Response. -/
def RpcImpl.callOfBytes (impl : RpcImpl Name State Q R)
    (qc : TypeCodec Q) (rc : TypeCodec R)
    (inputBytes : OwnedBytes) (state : State) : RpcResult OwnedBytes × State :=
  match TransportWireConfig.deserialize qc inputBytes with
  | .error e => (.error e, state)
  | .ok query =>
    match impl.call state query with
    | (.error e, state1) => (.error e, state1)
    | (.ok result, state1) => (.ok (rc.ser result), state1)

/-- The type-erased stored operation (`StoredRpc` trait object, core.rs
lines 70 to 78): the uniform capability from payload bytes and state to
response bytes, with the concrete Query and Response types hidden. -/
structure StoredRpc (State : Type) where
  callOfBytes : OwnedBytes → State → RpcResult OwnedBytes × State

/-- Erasing an `RpcImpl` to its stored form: the registration-time
closure over the concrete Query and Response types. -/
def RpcImpl.toStored (impl : RpcImpl Name State Q R)
    (qc : TypeCodec Q) (rc : TypeCodec R) : StoredRpc State :=
  ⟨fun bytes state => impl.callOfBytes qc rc bytes state⟩

namespace RPCServer

/-- The name-keyed operation table of `RPCServer` (server.rs lines 13 to
20): `HashMap<Name, Box<R>>` modelled by its lookup function. -/
abbrev Registry (Name State : Type) := Name → Option (StoredRpc State)

/-- Model of `RPCServer::add_rpc` (server.rs lines 34 to 36): `HashMap::insert`,
which replaces any prior entry under the same name. -/
def addRpc [DecidableEq Name] (rpcs : Registry Name State)
    (name : Name) (rpcImpl : StoredRpc State) : Registry Name State :=
  fun k => if k = name then some rpcImpl else rpcs k

/-- Model of `RPCServer::call` (server.rs lines 38 to 59): look the name up in the
registry; if present, run the stored operation on the incoming bytes and
the state; otherwise fail with the not-found error carrying the rendered
name, leaving the state untouched. `disp` is the `Display` instance of
the name type. -/
def call (disp : Name → String) (rpcs : Registry Name State)
    (incomingBytes : OwnedBytes) (incomingName : Name) (state : State) :
    RpcResult OwnedBytes × State :=
  match rpcs incomingName with
  | some rpcImpl => rpcImpl.callOfBytes incomingBytes state
  | none => (.error (.custom ("Rpc not found: " ++ disp incomingName)), state)

/-- What the server observes of one accepted connection: the outcome of
the internal receive on it, and whether writing the response back
succeeds. -/
structure ConnModel where
  rcv : Except TransportError OwnedBytes
  sendOk : Bool

/-- Outcome of `RPCServer::handle_connection` for one connection as seen
by the serve loop: a response written back, an error value logged by the
loop, or a panic that unwinds through the loop. -/
inductive ConnOutcome where
  | responded (bytes : OwnedBytes) : ConnOutcome
  | errorLogged (e : RpcError) : ConnOutcome
  | panicked (msg : String) : ConnOutcome

/-- Model of `RPCServer::handle_connection` (server.rs lines 61 to 77): receive a
frame (an I/O failure becomes an `RpcError` propagated to the loop),
decode it via `Transport::receive_query` (whose deserialize calls
unwrap, panicking on a malformed frame), dispatch through
`RPCServer::call` and `.unwrap()` the result (panicking on any dispatch
failure, including an unregistered name), then send the response back
(an I/O failure again propagated as an error). -/
def handleConnection (disp : Name → String)
    (nc : TypeCodec Name) (rpcs : Registry Name State)
    (state : State) (conn : ConnModel) : ConnOutcome × State :=
  match conn.rcv with
  | .error te => (.errorLogged (.transportError te), state)
  | .ok bytes =>
    match Transport.receiveQueryBytes nc bytes with
    | .panicked m => (.panicked m, state)
    | .ok (name, queryBytes) =>
      match call disp rpcs queryBytes name state with
      | (.error e, state1) => (.panicked (RpcError.display e), state1)
      | (.ok resultBytes, state1) =>
        if conn.sendOk then (.responded resultBytes, state1)
        else (.errorLogged (.transportError (.sendError "io")), state1)

/-- The accept loop of `RPCServer::serve` (server.rs lines 79 to 95) run
over a finite schedule of accept results: a listener error is logged and
the loop continues; a handled connection that returns an error is logged
and the loop continues; a panic unwinds out of the loop, so the
remaining connections are never served. Returns the outcomes of the
connections actually handled and whether the loop died in a panic. -/
def serveConns (disp : Name → String)
    (nc : TypeCodec Name) (rpcs : Registry Name State) :
    State → List (Except String ConnModel) → List ConnOutcome × Bool
  | _, [] => ([], false)
  | state, .error _ :: restConns => serveConns disp nc rpcs state restConns
  | state, .ok conn :: restConns =>
    match handleConnection disp nc rpcs state conn with
    | (.panicked m, _) => ([.panicked m], true)
    | (outcome, state1) =>
      let (outcomes, crashed) := serveConns disp nc rpcs state1 restConns
      (outcome :: outcomes, crashed)

end RPCServer

/-- Model of one `stream.read(&mut buf)` outcome
inside `TcpTransport::receive` (transport.rs lines 286 to 311): a chunk
of bytes (possibly empty, as on a closed connection) or an I/O error. -/
inductive ReadEvent where
  | chunk (bytes : List Nat) : ReadEvent
  | ioError (msg : String) : ReadEvent

namespace TcpTransport

/-- The fixed read-buffer size of `TcpTransport::receive`
(transport.rs line 289). -/
def bufSize : Nat := 1024

/-- The accumulate-until-short-read loop of `TcpTransport::receive`
(transport.rs lines 291 to 310): a zero-byte read returns the bytes
accumulated so far; a short read appends and returns; a full read
appends and loops; an I/O error fails with the receive error. An
exhausted schedule models a read that blocks forever (`none`). -/
def receiveAux : List Nat → List ReadEvent → Option (Except TransportError (List Nat))
  | _acc, [] => none
  | _acc, .ioError m :: _ => some (.error (.receiveError m))
  | acc, .chunk b :: restReads =>
    if b.length = 0 then some (.ok acc)
    else if b.length < bufSize then some (.ok (acc ++ b))
    else receiveAux (acc ++ b) restReads

/-- Model of `TcpTransport::receive`: run the loop with an empty accumulator. -/
def receive (reads : List ReadEvent) : Option (Except TransportError (List Nat)) :=
  receiveAux [] reads

end TcpTransport

/-- The internal transport held by a connected client, reduced to what
`RpcClient::call` uses of it: `send_and_wait_for_response`
(transport.rs lines 50 to 53). -/
structure InternalTransportModel where
  sendAndWait : OwnedBytes → Except TransportError OwnedBytes

/-- Model of `RpcClient::call` (client.rs lines 20 to 28): serialize the query,
send the framed package and wait for the reply, then deserialize the
reply as the Response type — the reply deserialize unwraps, so a
malformed reply panics. Also returns the list of frames handed to the
internal transport, to make "performs no send" observable. -/
def RpcClient.call (it : InternalTransportModel) (nc : TypeCodec Name)
    (qc : TypeCodec Q) (rc : TypeCodec R) (query : Q) (rpcName : Name) :
    PanicOr (RpcResult R) × List OwnedBytes :=
  let queryBytes := qc.ser query
  let frame := Transport.packageBytes nc queryBytes rpcName
  match it.sendAndWait frame with
  | .error te => (.ok (.error (.transportError te)), [frame])
  | .ok resultBytes =>
    match rc.deser resultBytes with
    | .ok r => (.ok (.ok r), [frame])
    | .error m => (.panicked m, [frame])

/-- Model of `call_client` (client.rs lines 32 to 52): establish the TCP
connection first; a connect failure is reported as
`TransportError::ConnectError` wrapping the rendered I/O error, before
any transport exists, so nothing is sent. On success, delegate to
`RpcClient::call`. -/
def callClient (connectResult : Except String InternalTransportModel)
    (nc : TypeCodec Name) (qc : TypeCodec Q) (rc : TypeCodec R)
    (query : Q) (rpcName : Name) : PanicOr (RpcResult R) × List OwnedBytes :=
  match connectResult with
  | .error e => (.ok (.error (.transportError (.connectError e))), [])
  | .ok it => RpcClient.call it nc qc rc query rpcName

/-- Decoding a frame produced by the packaging steps recovers the name
and the payload bytes, provided the name codec round-trips at that
name. Shared helper for the wire-format results. -/
theorem receiveQueryBytes_packageBytes (nc : TypeCodec Name) (rpcName : Name)
    (payloadBytes : OwnedBytes) (h : nc.deser (nc.ser rpcName) = .ok rpcName) :
    Transport.receiveQueryBytes nc (Transport.packageBytes nc payloadBytes rpcName) =
      .ok (rpcName, payloadBytes) := by
  unfold Transport.receiveQueryBytes Transport.packageBytes
  rw [pickleDe_enc]
  simp [Transport.packageOfValue, h]

/-- Processing a run of full-buffer reads accumulates their bytes and
continues the loop. Shared helper for the receive-loop results. -/
theorem receiveAux_fullChunks (fulls : List (List Nat)) :
    ∀ (acc : List Nat) (evs : List ReadEvent),
      (∀ c ∈ fulls, c.length = TcpTransport.bufSize) →
      TcpTransport.receiveAux acc (fulls.map ReadEvent.chunk ++ evs) =
        TcpTransport.receiveAux (acc ++ fulls.flatten) evs := by
  induction fulls with
  | nil => intro acc evs _; simp
  | cons c cs ihc =>
    intro acc evs hf
    have hc : c.length = TcpTransport.bufSize := hf c (by simp)
    simp only [List.map_cons, List.cons_append, TcpTransport.receiveAux]
    rw [if_neg (by simp [hc, TcpTransport.bufSize]), if_neg (by simp [hc])]
    have h2 := ihc (acc ++ c) evs (fun d hd => hf d (by simp [hd]))
    simpa using h2

/-- C1 (dispatch correctness): for an operation registered under name `n`
with handler `impl.call`, and a query `q` whose encoding round-trips,
dispatching `n` with the encoded bytes of `q` against state `s` returns
response bytes that decode to exactly the handler result on `(s, q)`,
with the handler-mutated state threaded through; the stored operation
performs decode, invoke, encode in that order (see
`RpcImpl.callOfBytes`). -/
theorem dispatch_correctness {Name State Q R : Type}
    (disp : Name → String) (rpcs : RPCServer.Registry Name State)
    (qc : TypeCodec Q) (rc : TypeCodec R) (impl : RpcImpl Name State Q R)
    (n : Name) (q : Q) (s s1 : State) (r : R)
    (hreg : rpcs n = some (impl.toStored qc rc))
    (hq : qc.deser (qc.ser q) = .ok q)
    (hr : rc.deser (rc.ser r) = .ok r)
    (hcall : impl.call s q = (.ok r, s1)) :
    RPCServer.call disp rpcs (qc.ser q) n s = (.ok (rc.ser r), s1) ∧
      rc.deser (rc.ser r) = .ok r := by
  refine ⟨?_, hr⟩
  simp [RPCServer.call, hreg, RpcImpl.toStored, RpcImpl.callOfBytes,
    TransportWireConfig.deserialize, hq, hcall]

/-- Witness for C1: a concrete echo operation registered under name `1`
over `Nat` state, called at query `.str "foo"` from state `0`. -/
theorem dispatch_correctness_witness :
    RPCServer.call (fun k => toString k)
        (RPCServer.addRpc (fun _ => none) 1
          ((⟨1, fun s q => (.ok q, s + 1)⟩ : RpcImpl Nat Nat PValue PValue).toStored
            pvCodec pvCodec))
        (pvCodec.ser (.str "foo")) 1 0 = (.ok (pvCodec.ser (.str "foo")), 1) ∧
      pvCodec.deser (pvCodec.ser (.str "foo")) = .ok (.str "foo") :=
  dispatch_correctness (fun k => toString k) _ pvCodec pvCodec
    ⟨1, fun s q => (.ok q, s + 1)⟩ 1 (.str "foo") 0 1
    (.str "foo") (by simp [RPCServer.addRpc]) (pvCodec_round_trip _)
    (pvCodec_round_trip _) rfl

/-- C2 (server-loop fault isolation, refuted on the code): a connection
that delivers a well-formed frame naming an unregistered operation makes
`handle_connection` panic (the `.unwrap()` on the dispatch result), the
panic unwinds through the serve loop, and a following well-formed
connection is never served — the loop neither logs-and-continues nor
keeps accepting, contrary to the claim. -/
theorem serve_crashes_on_dispatch_failure :
    RPCServer.serveConns (fun _ => "nope") pvCodec
      (fun _ => (none : Option (StoredRpc Nat))) 0
      [.ok ⟨.ok (Transport.packageBytes pvCodec [7] (.str "nope")), true⟩,
       .ok ⟨.ok (Transport.packageBytes pvCodec [8] (.str "nope")), true⟩] =
      ([.panicked ("Rpc not found: " ++ "nope")], true) := by
  have h1 : Transport.receiveQueryBytes pvCodec
      (Transport.packageBytes pvCodec [7] (.str "nope")) = .ok (.str "nope", [7]) :=
    receiveQueryBytes_packageBytes pvCodec _ _ (pvCodec_round_trip _)
  simp [RPCServer.serveConns, RPCServer.handleConnection, h1, RPCServer.call,
    RpcError.display]

/-- C3 (codec decode failure, refuted on the code): on malformed bytes
(here the empty byte sequence) `TransportConfig::deserialize` does not
return a decode-failure error value — it unwraps the pickle error and
aborts the process. -/
theorem deserialize_unwrap_panics :
    TransportConfig.deserialize [] = .panicked "unexpected end of input" := rfl

/-- C4 (unknown name): dispatching any name absent from the registry,
with any payload bytes and any state, fails with the not-found error
carrying the rendered name, leaves the state unchanged, and — the result
being fixed independently of every stored operation — invokes no
handler. -/
theorem unknown_name_not_found (disp : Name → String)
    (rpcs : RPCServer.Registry Name State) (bytes : OwnedBytes)
    (name : Name) (state : State) (h : rpcs name = none) :
    RPCServer.call disp rpcs bytes name state =
      (.error (.custom ("Rpc not found: " ++ disp name)), state) := by
  simp [RPCServer.call, h]

/-- Witness for C4: the empty registry at name `0`, payload `[1, 2]`,
state `5`. -/
theorem unknown_name_not_found_witness :
    RPCServer.call (fun _ => "GetNames") (fun _ => (none : Option (StoredRpc Nat)))
        [1, 2] (0 : Nat) 5 =
      (.error (.custom ("Rpc not found: " ++ "GetNames")), 5) :=
  unknown_name_not_found (fun _ => "GetNames") _ [1, 2] 0 5 rfl

/-- C5 (Wire Package round-trip): for every operation name whose codec
round-trips and every payload byte sequence, decoding the encoded frame
recovers an equal name and byte-for-byte equal payload bytes, the
payload left un-decoded by the framing layer. -/
theorem wire_package_round_trip (nc : TypeCodec Name) (rpcName : Name)
    (payloadBytes : OwnedBytes) (h : nc.deser (nc.ser rpcName) = .ok rpcName) :
    Transport.receiveQueryBytes nc (Transport.packageBytes nc payloadBytes rpcName) =
      .ok (rpcName, payloadBytes) :=
  receiveQueryBytes_packageBytes nc rpcName payloadBytes h

/-- Witness for C5: the pickle codec at name `.str "op"` and payload
`[9, 9]`. -/
theorem wire_package_round_trip_witness :
    Transport.receiveQueryBytes pvCodec
        (Transport.packageBytes pvCodec [9, 9] (.str "op")) =
      .ok (.str "op", [9, 9]) :=
  wire_package_round_trip pvCodec (.str "op") [9, 9] (pvCodec_round_trip _)

/-- C6 (channel receive accumulation): after any run of full-buffer
reads, the loop returns the concatenation of everything read exactly
when a read yields zero bytes or fewer bytes than the buffer size, and
fails with the receive error on an I/O error. -/
theorem tcp_receive_accumulation (fulls : List (List Nat))
    (restReads : List ReadEvent)
    (hfull : ∀ c ∈ fulls, c.length = TcpTransport.bufSize) :
    (∀ short : List Nat, short.length < TcpTransport.bufSize →
      TcpTransport.receive (fulls.map ReadEvent.chunk ++ (ReadEvent.chunk short :: restReads)) =
        some (.ok (fulls.flatten ++ short))) ∧
    (∀ m : String,
      TcpTransport.receive (fulls.map ReadEvent.chunk ++ (ReadEvent.ioError m :: restReads)) =
        some (.error (.receiveError m))) := by
  constructor
  · intro short hshort
    unfold TcpTransport.receive
    rw [receiveAux_fullChunks fulls [] _ hfull]
    simp only [List.nil_append, TcpTransport.receiveAux]
    by_cases h0 : short.length = 0
    · simp [h0, List.length_eq_zero.mp h0]
    · simp [h0, hshort]
  · intro m
    unfold TcpTransport.receive
    rw [receiveAux_fullChunks fulls [] _ hfull]
    simp [TcpTransport.receiveAux]

/-- Witness for C6: one full 1024-byte read followed by a 3-byte short
read. -/
theorem tcp_receive_accumulation_witness :
    TcpTransport.receive
        (List.map ReadEvent.chunk [List.replicate TcpTransport.bufSize 7] ++
          (ReadEvent.chunk [1, 2, 3] :: [])) =
      some (.ok (List.flatten [List.replicate TcpTransport.bufSize 7] ++ [1, 2, 3])) :=
  (tcp_receive_accumulation [List.replicate TcpTransport.bufSize 7] [] (by simp)).1
    [1, 2, 3] (by simp [TcpTransport.bufSize])

/-- C7 (codec round-trip): deserializing the bytes produced by
serializing any value of the codec universe with the same configuration
yields an equal value. -/
theorem codec_round_trip (v : PValue) : pvCodec.deser (pvCodec.ser v) = .ok v :=
  pvCodec_round_trip v

/-- C8 (last-write-wins registration): after registering two operations
under the same name in order, the registry maps that name to the second
operation only, and dispatching that name runs the second operation;
the registry being a map keyed on the name, each name holds exactly one
stored operation. -/
theorem last_write_wins [DecidableEq Name] (disp : Name → String)
    (rpcs : RPCServer.Registry Name State) (name : Name)
    (first second : StoredRpc State) (bytes : OwnedBytes) (state : State) :
    (RPCServer.addRpc (RPCServer.addRpc rpcs name first) name second) name =
        some second ∧
      RPCServer.call disp (RPCServer.addRpc (RPCServer.addRpc rpcs name first) name second)
          bytes name state =
        second.callOfBytes bytes state := by
  constructor
  · simp [RPCServer.addRpc]
  · simp [RPCServer.call, RPCServer.addRpc]

/-- C9 (client connect failure): when establishing the connection fails,
`call_client` returns the transport failure of the connect kind wrapping
the underlying detail, and hands nothing to any transport. -/
theorem client_connect_failure {Name Q R : Type} (e : String)
    (nc : TypeCodec Name) (qc : TypeCodec Q) (rc : TypeCodec R)
    (query : Q) (rpcName : Name) :
    callClient (.error e) nc qc rc query rpcName =
      (.ok (.error (.transportError (.connectError e))), []) := by
  simp [callClient]

/-- C10 (zero-byte first read): if the very first read yields zero bytes
(peer closed with no data), the TCP receive succeeds with the empty byte
sequence rather than failing. -/
theorem receive_zero_first_read (restReads : List ReadEvent) :
    TcpTransport.receive (ReadEvent.chunk [] :: restReads) = some (.ok []) := by
  simp [TcpTransport.receive, TcpTransport.receiveAux]

end Pirates
